import Mathlib

/-!
# Verification of the claude-squad session orchestration core

Shallow embedding of the parts of the `claude-squad` repository that the
frozen claims are about, together with theorems settling each claim.

Conventions used throughout:
* Go `string` is modelled as Lean `String` (operated on through its
  underlying `List Char`); Go byte slices of terminal output are modelled
  as `List Char` (all relevant bytes are ASCII).
* `time.Time` values are modelled as `Nat` timestamps; `time.Now()`
  becomes an explicit `now : Nat` parameter.
* Fallible Go functions returning `error` become `Except String _` or
  `Option String` (the error message).
* External effects (git subprocesses, the file system, the multiplexer)
  are modelled by explicit oracle values passed in as parameters.
-/

namespace ClaudeSquad

/-! ## Zellij session-name sanitization (session/zellij, `toClaudeSquadZellijName`)

Source:
```go
const ZellijPrefix = "claudesquad_"
var whiteSpaceRegex = regexp.MustCompile(`\s+`)
func toClaudeSquadZellijName(str string) string {
    str = whiteSpaceRegex.ReplaceAllString(str, "")
    str = strings.ReplaceAll(str, ".", "_")
    return fmt.Sprintf("%s%s", ZellijPrefix, str)
}
```
`\s` in Go's RE2 matches exactly `[\t\n\f\r ]`; replacing every maximal
run of whitespace by the empty string is the same as deleting every
whitespace character. -/

def zellijPrefixStr : String := "claudesquad_"

def isGoWhitespace (c : Char) : Bool :=
  c = ' ' || c = '\t' || c = '\n' || c = '\x0c' || c = '\r'

def dotToUnderscore (c : Char) : Char :=
  if c = '.' then '_' else c

/-- The two regex/replace passes of `toClaudeSquadZellijName`:
whitespace removed, then dots mapped to underscores. -/
def cleanChars (l : List Char) : List Char :=
  (l.filter (fun c => !isGoWhitespace c)).map dotToUnderscore

def toClaudeSquadZellijName (s : String) : String :=
  ⟨zellijPrefixStr.data ++ cleanChars s.data⟩

lemma cleanChars_append (l₁ l₂ : List Char) :
    cleanChars (l₁ ++ l₂) = cleanChars l₁ ++ cleanChars l₂ := by
  simp [cleanChars]

lemma isGoWhitespace_dotToUnderscore (c : Char) (h : isGoWhitespace c = false) :
    isGoWhitespace (dotToUnderscore c) = false := by
  by_cases hd : c = '.'
  · subst hd; decide
  · simpa [dotToUnderscore, hd] using h

lemma dotToUnderscore_idem (c : Char) :
    dotToUnderscore (dotToUnderscore c) = dotToUnderscore c := by
  by_cases hd : c = '.'
  · subst hd; decide
  · simp [dotToUnderscore, hd]

lemma cleanChars_cons_of_ws (c : Char) (l : List Char) (h : isGoWhitespace c = true) :
    cleanChars (c :: l) = cleanChars l := by
  simp [cleanChars, h]

lemma cleanChars_cons_of_not_ws (c : Char) (l : List Char) (h : isGoWhitespace c = false) :
    cleanChars (c :: l) = dotToUnderscore c :: cleanChars l := by
  simp [cleanChars, h]

lemma cleanChars_idem (l : List Char) : cleanChars (cleanChars l) = cleanChars l := by
  induction l with
  | nil => rfl
  | cons c rest ih =>
    cases hws : isGoWhitespace c with
    | true =>
      rw [cleanChars_cons_of_ws c rest hws, ih]
    | false =>
      have hmap := isGoWhitespace_dotToUnderscore c hws
      rw [cleanChars_cons_of_not_ws c rest hws,
        cleanChars_cons_of_not_ws _ _ hmap, dotToUnderscore_idem, ih]

lemma cleanChars_prefixData : cleanChars zellijPrefixStr.data = zellijPrefixStr.data := by
  decide

/-- C4 (counterexample): session-name sanitization is NOT idempotent.
`toClaudeSquadZellijName` unconditionally prepends the product string
`"claudesquad_"`, so applying it to its own output doubles that part:
already on the empty string, `sanitize (sanitize "") =
"claudesquad_claudesquad_" ≠ "claudesquad_" = sanitize ""`. -/
theorem c4_sanitize_not_idempotent :
    toClaudeSquadZellijName (toClaudeSquadZellijName "") ≠ toClaudeSquadZellijName "" := by
  decide

/-- C4 (amended): sanitization removes every whitespace character, maps every
dot to an underscore (so the result carries neither), and unconditionally
prepends the product string `"claudesquad_"` — the result always begins with
it, but a second application prepends it again, so sanitization is not
idempotent: `sanitize (sanitize x) = "claudesquad_" ++ sanitize x`. -/
theorem c4_sanitize_amended (s : String) :
    toClaudeSquadZellijName (toClaudeSquadZellijName s)
        = ⟨zellijPrefixStr.data ++ (toClaudeSquadZellijName s).data⟩
      ∧ (toClaudeSquadZellijName s).data.take 12 = zellijPrefixStr.data
      ∧ (toClaudeSquadZellijName s).data.all
          (fun c => !isGoWhitespace c && c ≠ '.') = true := by
  refine ⟨?_, ?_, ?_⟩
  · show (⟨zellijPrefixStr.data ++ cleanChars (zellijPrefixStr.data ++ cleanChars s.data)⟩ : String) = _
    rw [cleanChars_append, cleanChars_prefixData, cleanChars_idem]
    rfl
  · show (zellijPrefixStr.data ++ cleanChars s.data).take 12 = zellijPrefixStr.data
    rw [List.take_append_of_le_length (by decide)]
    decide
  · show (zellijPrefixStr.data ++ cleanChars s.data).all _ = true
    rw [List.all_append, Bool.and_eq_true]
    refine ⟨by decide, ?_⟩
    rw [List.all_eq_true]
    intro c hc
    rcases List.mem_map.mp hc with ⟨c₀, hc₀, rfl⟩
    have hws : isGoWhitespace c₀ = false := by
      have := List.of_mem_filter hc₀
      simpa using this
    have h1 := isGoWhitespace_dotToUnderscore c₀ hws
    have h2 : dotToUnderscore c₀ ≠ '.' := by
      by_cases hd : c₀ = '.'
      · subst hd; decide
      · simp [dotToUnderscore, hd]
    simp [h1, h2]

/-! ## Capture-file retry reader (session/zellij, `readCaptureFileWithRetry`)

Source (part_011 lines 32-36 and 487-534): a `for attempt := 0; attempt <=
captureFileMaxRetries` loop (with `captureFileMaxRetries = 3`, hence 4
attempts) that on each attempt stats the file, rejects empty files, reads
it, rejects empty reads, and otherwise returns the content; every failing
attempt records `lastErr` and the loop's fall-through wraps the last
failure. The sleeps between attempts are timing and are not modelled.
`FileObs` is the file-system oracle: what attempt `k` observes. -/

def captureFileMaxRetries : Nat := 3

/-- What one `os.Stat` + `os.ReadFile` round observes for the capture file. -/
inductive FileObs where
  /-- `os.Stat` fails with a not-exist error whose message is `m`. -/
  | missing (m : String)
  /-- `os.Stat` fails with some other error `m`. -/
  | statFail (m : String)
  /-- `os.Stat` succeeds with `Size() == 0`. -/
  | emptyFile
  /-- `os.Stat` sees a non-empty file but `os.ReadFile` fails with `m`. -/
  | readFail (m : String)
  /-- `os.Stat` sees a non-empty file and `os.ReadFile` returns `s`
  (`s = ""` models the racy empty read the code re-checks for). -/
  | content (s : String)
deriving DecidableEq

/-- The body of one loop iteration: either the content is returned, or the
attempt fails with the `lastErr` message this iteration records. Mirrors the
stat / empty-size / read / empty-content checks and their `fmt.Errorf` calls. -/
def attemptOutcome : FileObs → Nat → Except String String
  | .missing m, a =>
      .error ("capture file does not exist (attempt " ++ toString (a + 1) ++ "/4): " ++ m)
  | .statFail m, a =>
      .error ("error checking capture file (attempt " ++ toString (a + 1) ++ "/4): " ++ m)
  | .emptyFile, a =>
      .error ("capture file is empty (attempt " ++ toString (a + 1) ++ "/4)")
  | .readFail m, a =>
      .error ("error reading capture file (attempt " ++ toString (a + 1) ++ "/4): " ++ m)
  | .content s, a =>
      if s = "" then
        .error ("capture file read returned empty content (attempt " ++ toString (a + 1) ++ "/4)")
      else .ok s

/-- The `lastErr` message a failing attempt records (`none` when the attempt
succeeds). -/
def attemptFailMsg (o : FileObs) (a : Nat) : Option String :=
  match attemptOutcome o a with
  | .error e => some e
  | .ok _ => none

/-- The retry loop; `fuel` counts the remaining iterations (4 at the start),
`attempt` is the loop index, `lastErr` the recorded last failure. -/
def readCaptureAux (obs : Nat → FileObs) : Nat → Nat → Option String → Except String String
  | 0, _, lastErr =>
      .error ("failed to read capture file after " ++ toString (captureFileMaxRetries + 1)
        ++ " attempts: " ++ lastErr.getD "")
  | fuel + 1, attempt, _ =>
      match attemptOutcome (obs attempt) attempt with
      | .ok s => .ok s
      | .error e => readCaptureAux obs fuel (attempt + 1) (some e)

def readCaptureFileWithRetry (obs : Nat → FileObs) : Except String String :=
  readCaptureAux obs (captureFileMaxRetries + 1) 0 none

/-- `true` when the attempt observed a missing or empty capture file. -/
def isMissingOrEmpty : FileObs → Bool
  | .missing _ => true
  | .emptyFile => true
  | _ => false

lemma readCaptureAux_step_fail (obs : Nat → FileObs) (n a : Nat) (last : Option String)
    (e : String) (h : attemptFailMsg (obs a) a = some e) :
    readCaptureAux obs (n + 1) a last = readCaptureAux obs n (a + 1) (some e) := by
  unfold attemptFailMsg at h
  cases ho : attemptOutcome (obs a) a with
  | ok s => rw [ho] at h; simp at h
  | error e' =>
    rw [ho] at h
    simp only [Option.some.injEq] at h
    subst h
    simp [readCaptureAux, ho]

lemma readCaptureAux_step_ok (obs : Nat → FileObs) (n a : Nat) (last : Option String)
    (s : String) (h : obs a = .content s) (hs : s ≠ "") :
    readCaptureAux obs (n + 1) a last = .ok s := by
  simp [readCaptureAux, h, attemptOutcome, hs]

lemma attemptFailMsg_of_missingOrEmpty (o : FileObs) (a : Nat)
    (h : isMissingOrEmpty o = true) : ∃ e, attemptFailMsg o a = some e := by
  cases o <;> simp [isMissingOrEmpty] at h <;> simp [attemptFailMsg, attemptOutcome]

/-- C7: the capture-file reader returns the content when the first three
attempts observe a missing or empty file and the fourth observes a non-empty
file, and when all four attempts fail it returns an error wrapping the last
attempt's failure. -/
theorem c7_capture_retry (obs : Nat → FileObs) :
    (∀ s : String, (∀ k, k < 3 → isMissingOrEmpty (obs k) = true) →
        obs 3 = .content s → s ≠ "" → readCaptureFileWithRetry obs = .ok s)
  ∧ (∀ e : String, (∀ k, k < 3 → attemptFailMsg (obs k) k ≠ none) →
        attemptFailMsg (obs 3) 3 = some e →
        readCaptureFileWithRetry obs
          = .error ("failed to read capture file after 4 attempts: " ++ e)) := by
  constructor
  · intro s hfail h3 hs
    obtain ⟨e0, he0⟩ := attemptFailMsg_of_missingOrEmpty (obs 0) 0 (hfail 0 (by norm_num))
    obtain ⟨e1, he1⟩ := attemptFailMsg_of_missingOrEmpty (obs 1) 1 (hfail 1 (by norm_num))
    obtain ⟨e2, he2⟩ := attemptFailMsg_of_missingOrEmpty (obs 2) 2 (hfail 2 (by norm_num))
    unfold readCaptureFileWithRetry
    rw [show captureFileMaxRetries + 1 = 3 + 1 from rfl,
      readCaptureAux_step_fail obs 3 0 none e0 he0,
      readCaptureAux_step_fail obs 2 1 (some e0) e1 he1,
      readCaptureAux_step_fail obs 1 2 (some e1) e2 he2,
      readCaptureAux_step_ok obs 0 3 (some e2) s h3 hs]
  · intro e hfail h3
    obtain ⟨e0, he0⟩ := Option.ne_none_iff_exists'.mp (hfail 0 (by norm_num))
    obtain ⟨e1, he1⟩ := Option.ne_none_iff_exists'.mp (hfail 1 (by norm_num))
    obtain ⟨e2, he2⟩ := Option.ne_none_iff_exists'.mp (hfail 2 (by norm_num))
    unfold readCaptureFileWithRetry
    rw [show captureFileMaxRetries + 1 = 3 + 1 from rfl,
      readCaptureAux_step_fail obs 3 0 none e0 he0,
      readCaptureAux_step_fail obs 2 1 (some e0) e1 he1,
      readCaptureAux_step_fail obs 1 2 (some e1) e2 he2,
      readCaptureAux_step_fail obs 0 3 (some e2) e h3]
    rfl

/-- C7 witness: a file missing on attempts 1-3 and present with content
`"hello"` on attempt 4 is read successfully, and a file that stays empty
through all 4 attempts yields the wrapping error. -/
theorem c7_capture_retry_witness :
    readCaptureFileWithRetry
        (fun k => if k < 3 then .missing "ENOENT" else .content "hello") = .ok "hello"
  ∧ readCaptureFileWithRetry (fun _ => .emptyFile)
      = .error ("failed to read capture file after 4 attempts: "
          ++ "capture file is empty (attempt 4/4)") := by
  constructor
  · exact (c7_capture_retry _).1 "hello"
      (by intro k hk; interval_cases k <;> rfl) (by rfl) (by decide)
  · exact (c7_capture_retry _).2 _
      (by intro k hk; interval_cases k <;> decide) (by rfl)

/-! ## Data model (session/instance.go, session/git, part_013, part_014, config)

`time.Time` values become `Nat` timestamps; Go `int` dimensions become
`Int`. The live multiplexer session handle is abstracted to a presence flag
`hasSession` (only its nil-ness is inspected by the modelled code paths). -/

def sessionTypeZellij : String := "zellij"
def sessionTypeDockerBind : String := "docker-bind"
def sessionTypeDockerClone : String := "docker-clone"
def multiplexerZellij : String := "zellij"

/-- `session.Status` (instance.go lines 19-30): 0=Running, 1=Ready,
2=Loading, 3=Paused. -/
inductive Status where
  | running
  | ready
  | loading
  | paused
deriving DecidableEq

/-- `git.DiffStats` (worktree.go lines 181-192). -/
structure DiffStats where
  content : String
  added : Nat
  removed : Nat
  error : Option String
deriving DecidableEq

/-- `DiffStats.IsEmpty` (worktree.go line 194). -/
def DiffStats.isEmptyStats (d : DiffStats) : Bool :=
  d.added == 0 && d.removed == 0 && d.content == ""

/-- `git.GitWorktree` (worktree.go lines 24-43); the progress callback is
omitted (no modelled path reads it). -/
structure GitWorktree where
  repoPath : String
  worktreePath : String
  sessionName : String
  branchName : String
  baseCommitSHA : String
  cachedDiffStats : Option DiffStats := none
  diffCacheTime : Nat := 0
  diffCacheDuration : Nat := 0
deriving DecidableEq

/-- `git.NewGitWorktreeFromStorage` (worktree.go lines 45-53). -/
def newGitWorktreeFromStorage (repoPath worktreePath sessionName branchName
    baseCommitSHA : String) : GitWorktree :=
  { repoPath := repoPath, worktreePath := worktreePath, sessionName := sessionName,
    branchName := branchName, baseCommitSHA := baseCommitSHA }

/-- `session.Instance` (instance.go lines 33-96). -/
structure Instance where
  title : String
  path : String := ""
  branch : String := ""
  status : Status
  program : String := ""
  height : Int := 0
  width : Int := 0
  createdAt : Nat := 0
  updatedAt : Nat := 0
  lastOpenedAt : Option Nat := none
  autoYes : Bool := false
  prompt : String := ""
  archived : Bool := false
  diffStats : Option DiffStats := none
  summary : String := ""
  summaryUpdatedAt : Nat := 0
  lastDiffUpdate : Nat := 0
  lastActivity : Nat := 0
  claudeSessionID : String := ""
  sessionType : String := ""
  dockerContainerID : String := ""
  dockerRepoURL : String := ""
  dockerBaseImage : String := ""
  started : Bool := false
  hasSession : Bool := false
  multiplexerType : String := ""
  gitWorktree : Option GitWorktree := none
deriving DecidableEq

/-- `GitWorktreeData` (part_013 lines 46-52). -/
structure GitWorktreeData where
  repoPath : String
  worktreePath : String
  sessionName : String
  branchName : String
  baseCommitSHA : String
deriving DecidableEq

/-- `DiffStatsData` (part_013 lines 55-59). -/
structure DiffStatsData where
  added : Nat
  removed : Nat
  content : String
deriving DecidableEq

/-- `session.InstanceData` (part_013 lines 12-43). -/
structure InstanceData where
  title : String
  path : String
  branch : String
  status : Status
  height : Int
  width : Int
  createdAt : Nat
  updatedAt : Nat
  lastOpenedAt : Option Nat
  autoYes : Bool
  archived : Bool
  program : String
  multiplexer : String
  worktree : GitWorktreeData
  diffStats : DiffStatsData
  summary : String
  summaryUpdatedAt : Nat
  claudeSessionID : String
  sessionType : String
  dockerContainerID : String
  dockerRepoURL : String
deriving DecidableEq

/-- `Instance.ToInstanceData` (instance.go lines 99-143). `time.Now()` at
serialization time is the explicit `now`; note the source stores `now`, not
`i.UpdatedAt`, into the record's `UpdatedAt`. -/
def toInstanceData (now : Nat) (i : Instance) : InstanceData :=
  { title := i.title
    path := i.path
    branch := i.branch
    status := i.status
    height := i.height
    width := i.width
    createdAt := i.createdAt
    updatedAt := now
    lastOpenedAt := i.lastOpenedAt
    program := i.program
    autoYes := i.autoYes
    archived := i.archived
    multiplexer := i.multiplexerType
    summary := i.summary
    summaryUpdatedAt := i.summaryUpdatedAt
    claudeSessionID := i.claudeSessionID
    sessionType := i.sessionType
    dockerContainerID := i.dockerContainerID
    dockerRepoURL := i.dockerRepoURL
    worktree :=
      match i.gitWorktree with
      | some g => ⟨g.repoPath, g.worktreePath, g.sessionName, g.branchName, g.baseCommitSHA⟩
      | none => ⟨"", "", "", "", ""⟩
    diffStats :=
      match i.diffStats with
      | some d => ⟨d.added, d.removed, d.content⟩
      | none => ⟨0, 0, ""⟩ }

/-! ## Rename (instance.go lines 576-586) — C9

```go
func (i *Instance) Rename(newTitle string) error {
    if newTitle == "" { return fmt.Errorf("title cannot be empty") }
    if len(newTitle) > 32 { return fmt.Errorf("title cannot be longer than 32 characters") }
    i.Title = newTitle
    i.UpdatedAt = time.Now()
    return nil
}
```
Go `len` is the UTF-8 byte length, hence `String.utf8ByteSize`. -/

def rename (i : Instance) (newTitle : String) (now : Nat) : Except String Instance :=
  if newTitle = "" then .error "title cannot be empty"
  else if 32 < newTitle.utf8ByteSize then .error "title cannot be longer than 32 characters"
  else .ok { i with title := newTitle, updatedAt := now }

/-- C9: for a non-empty title of at most 32 bytes, `Rename` succeeds and
changes exactly the `Title` and `UpdatedAt` fields (so the worktree
descriptor — session name, branch name, worktree path — is untouched);
an empty title or one longer than 32 bytes is rejected with an error and
the instance is unchanged. -/
theorem c9_rename_frame (i : Instance) (now : Nat) :
    (∀ t : String, t ≠ "" → t.utf8ByteSize ≤ 32 →
        rename i t now = .ok { i with title := t, updatedAt := now })
  ∧ rename i "" now = .error "title cannot be empty"
  ∧ (∀ t : String, 32 < t.utf8ByteSize →
        rename i t now = .error "title cannot be longer than 32 characters") := by
  refine ⟨?_, ?_, ?_⟩
  · intro t ht hlen
    simp [rename, ht, Nat.not_lt.mpr hlen]
  · simp [rename]
  · intro t hlen
    have ht : t ≠ "" := by
      intro h
      subst h
      simp [String.utf8ByteSize] at hlen
    simp [rename, ht, hlen]

/-- C9 witness: renaming a concrete instance to `"new-name"` keeps the
branch and worktree descriptor and only rewrites title and timestamp, and
the two reject cases error out. -/
theorem c9_rename_frame_witness :
    rename { title := "old", branch := "dev/old", status := .running,
             gitWorktree := some (newGitWorktreeFromStorage "/r" "/w" "old" "dev/old" "sha") }
        "new-name" 42
      = .ok { title := "new-name", branch := "dev/old", status := .running, updatedAt := 42,
              gitWorktree := some (newGitWorktreeFromStorage "/r" "/w" "old" "dev/old" "sha") }
  ∧ rename { title := "old", status := .running } "" 42 = .error "title cannot be empty"
  ∧ rename { title := "old", status := .running } "123456789012345678901234567890123" 42
      = .error "title cannot be longer than 32 characters" := by
  refine ⟨?_, ?_, ?_⟩
  · exact (c9_rename_frame _ 42).1 "new-name" (by decide) (by decide)
  · exact (c9_rename_frame _ 42).2.1
  · exact (c9_rename_frame _ 42).2.2 "123456789012345678901234567890123" (by decide)

/-! ## Kill (instance.go lines 467-507) — C10 -/

lemma strAppend_assoc (a b c : String) : (a ++ b) ++ c = a ++ (b ++ c) := by
  cases a; cases b; cases c
  show String.mk _ = String.mk _
  rw [List.append_assoc]

/-- `Instance.combineErrors` (instance.go lines 494-507). -/
def combineErrors : List String → Option String
  | [] => none
  | [e] => some e
  | errs => some (errs.foldl (fun acc e => acc ++ "\n  - " ++ e)
      "multiple cleanup errors occurred:")

/-- What one `Kill` call did: which cleanups were attempted and the
combined error (`none` = success). -/
structure KillOutcome where
  closeAttempted : Bool
  cleanupAttempted : Bool
  result : Option String
deriving DecidableEq

/-- `Instance.Kill` (instance.go lines 467-491). The backend session's
`Close()` and the worktree's `Cleanup()` are external effects whose results
are the `closeRes` / `cleanupRes` oracles. -/
def kill (i : Instance) (closeRes cleanupRes : Except String Unit) : KillOutcome :=
  if !i.started then
    { closeAttempted := false, cleanupAttempted := false, result := none }
  else
    let closeErrs : List String :=
      if i.hasSession then
        match closeRes with
        | .ok _ => []
        | .error e => ["failed to close session: " ++ e]
      else []
    let cleanupErrs : List String :=
      if i.gitWorktree.isSome then
        match cleanupRes with
        | .ok _ => []
        | .error e => ["failed to cleanup git worktree: " ++ e]
      else []
    { closeAttempted := i.hasSession
      cleanupAttempted := i.gitWorktree.isSome
      result := combineErrors (closeErrs ++ cleanupErrs) }

/-- C10: killing a never-started instance returns success immediately with
no cleanup attempted; killing a started instance (with a session and a
worktree) always attempts both cleanups — even when closing fails — and
when both steps fail the two failures are combined into one error. -/
theorem c10_kill_cleanup (i : Instance) (closeRes cleanupRes : Except String Unit) :
    (i.started = false →
        kill i closeRes cleanupRes
          = { closeAttempted := false, cleanupAttempted := false, result := none })
  ∧ (i.started = true → i.hasSession = true → i.gitWorktree.isSome = true →
        (kill i closeRes cleanupRes).closeAttempted = true
      ∧ (kill i closeRes cleanupRes).cleanupAttempted = true
      ∧ (∀ e₁ e₂ : String, closeRes = .error e₁ → cleanupRes = .error e₂ →
            (kill i closeRes cleanupRes).result
              = some ("multiple cleanup errors occurred:" ++ "\n  - "
                  ++ ("failed to close session: " ++ e₁) ++ "\n  - "
                  ++ ("failed to cleanup git worktree: " ++ e₂)))) := by
  constructor
  · intro h
    simp [kill, h]
  · intro hs hsess hwt
    refine ⟨by simp [kill, hs, hsess], by simp [kill, hs, hwt], ?_⟩
    intro e₁ e₂ h₁ h₂
    subst h₁; subst h₂
    simp only [kill, hs, hsess, hwt, Bool.not_true, Bool.false_eq_true, if_false,
      List.cons_append, List.nil_append]
    rfl

/-- C10 witness: a concrete unstarted instance is killed as a no-op, and a
concrete started instance with both cleanups failing yields the combined
two-line error. -/
theorem c10_kill_cleanup_witness :
    kill { title := "a", status := .ready } (.error "x") (.error "y")
      = { closeAttempted := false, cleanupAttempted := false, result := none }
  ∧ (kill { title := "a", status := .running, started := true, hasSession := true,
            gitWorktree := some (newGitWorktreeFromStorage "/r" "/w" "a" "b" "s") }
        (.error "x") (.error "y")).result
      = some ("multiple cleanup errors occurred:" ++ "\n  - "
          ++ ("failed to close session: " ++ "x") ++ "\n  - "
          ++ ("failed to cleanup git worktree: " ++ "y")) := by
  constructor
  · exact (c10_kill_cleanup _ (.error "x") (.error "y")).1 rfl
  · exact ((c10_kill_cleanup _ (.error "x") (.error "y")).2 rfl rfl (by rfl)).2.2 "x" "y" rfl rfl

/-! ## Activity tick (app/app.go lines 241-255, instance.go lines 516-531,
parallel.go lines 19-58) — C3

The per-instance dispatch of the metadata tick:
```go
if result.Updated { result.Instance.SetStatus(session.Running) }
else { if result.HasPrompt { result.Instance.TapEnter() }
       else { result.Instance.SetStatus(session.Ready) } }
```
and `Instance.TapEnter`:
```go
func (i *Instance) TapEnter() {
    if !i.started || !i.AutoYes { return }
    if err := i.session.TapEnter(); err != nil { ... }
}
```
`ParallelUpdate` only produces a populated result for started, non-paused
instances (skipped entries have a nil `Instance` and are ignored by the
dispatch loop). -/

/-- Observable effect of the tick dispatch on one instance. -/
structure TickEffect where
  /-- `SetStatus` called with this status. -/
  newStatus : Option Status
  /-- The dispatch invoked `Instance.TapEnter()`. -/
  tapEnterCalled : Bool
  /-- An Enter keystroke actually reached the backend session. -/
  enterSentToSession : Bool
deriving DecidableEq

/-- `Instance.TapEnter` forwards to the session only when the instance is
started and `AutoYes` is set. -/
def instanceTapEnterSends (i : Instance) : Bool :=
  i.started && i.autoYes

/-- The per-instance dispatch in `app.Update` for `tickUpdateMetadataMessage`,
applied to the `(updated, hasPrompt)` pair `ParallelUpdate` got from
`HasUpdated()`. -/
def appTickDispatch (i : Instance) (updated hasPrompt : Bool) : TickEffect :=
  if updated then
    { newStatus := some .running, tapEnterCalled := false, enterSentToSession := false }
  else if hasPrompt then
    { newStatus := none, tapEnterCalled := true, enterSentToSession := instanceTapEnterSends i }
  else
    { newStatus := some .ready, tapEnterCalled := false, enterSentToSession := false }

/-- How many of the THREE outcomes claimed by C3 (status set Running,
status set Ready, an Enter keystroke issued to the session) occurred. -/
def claimedOutcomeCount (e : TickEffect) : Nat :=
  (if e.newStatus = some Status.running then 1 else 0)
  + (if e.newStatus = some Status.ready then 1 else 0)
  + (if e.enterSentToSession then 1 else 0)

/-- Outcome count with the third arm weakened to "`TapEnter` was invoked"
(the keystroke itself reaches the session only when `AutoYes` is on). -/
def amendedOutcomeCount (e : TickEffect) : Nat :=
  (if e.newStatus = some Status.running then 1 else 0)
  + (if e.newStatus = some Status.ready then 1 else 0)
  + (if e.tapEnterCalled then 1 else 0)

/-- A started, non-paused instance whose `AutoYes` is off. -/
def c3Inst : Instance :=
  { title := "x", status := .ready, program := "claude",
    started := true, autoYes := false, hasSession := true }

/-- C3 (counterexample): for a started, non-paused instance with a prompt
present, no content change, and `auto_yes = false`, NONE of the three
claimed outcomes occurs — the status is not touched and no Enter keystroke
reaches the session (`TapEnter` returns early) — so the claimed partition
("exactly one of the three outcomes, including when auto_yes is false")
fails. -/
theorem c3_tick_partition_counterexample :
    c3Inst.started = true
  ∧ c3Inst.status ≠ Status.paused
  ∧ claimedOutcomeCount (appTickDispatch c3Inst false true) = 0
  ∧ claimedOutcomeCount (appTickDispatch c3Inst false true) ≠ 1 := by
  decide

/-- C3 (amended): the activity tick is a partition with the third arm read
as "`TapEnter` is invoked": for every instance and `HasUpdated` result,
exactly one of {status set Running, status set Ready, `TapEnter` invoked}
occurs, and an Enter keystroke actually reaches the session exactly when
the content is unchanged, a prompt is present, and the instance is started
with `auto_yes` enabled. -/
theorem c3_tick_partition_amended (i : Instance) (updated hasPrompt : Bool) :
    amendedOutcomeCount (appTickDispatch i updated hasPrompt) = 1
  ∧ (appTickDispatch i updated hasPrompt).enterSentToSession
      = (!updated && hasPrompt && i.started && i.autoYes) := by
  cases updated <;> cases hasPrompt <;>
    simp [appTickDispatch, amendedOutcomeCount, instanceTapEnterSends, Bool.and_assoc]

/-! ## Storage.SaveInstances (part_013 lines 74-98) — C8

```go
data := make([]InstanceData, 0)
seenTitles := make(map[string]bool)
for _, instance := range instances {
    if instance.Started() {
        instanceData := instance.ToInstanceData()
        if seenTitles[instanceData.Title] { continue }
        seenTitles[instanceData.Title] = true
        data = append(data, instanceData)
    }
}
```
The JSON marshalling and the state write that follow operate on `data`
opaquely; the claim is about the record list, so the model produces it. -/

def saveInstancesLoop (now : Nat) : List Instance → List String → List InstanceData
  | [], _ => []
  | i :: rest, seen =>
    if i.started then
      let d := toInstanceData now i
      if d.title ∈ seen then saveInstancesLoop now rest seen
      else d :: saveInstancesLoop now rest (d.title :: seen)
    else saveInstancesLoop now rest seen

/-- The record list `Storage.SaveInstances` persists. -/
def storageSaveInstances (now : Nat) (instances : List Instance) : List InstanceData :=
  saveInstancesLoop now instances []

lemma title_toInstanceData (now : Nat) (i : Instance) :
    (toInstanceData now i).title = i.title := rfl

lemma saveInstancesLoop_not_mem_seen (now : Nat) (insts : List Instance) :
    ∀ seen, ∀ d ∈ saveInstancesLoop now insts seen, d.title ∉ seen := by
  induction insts with
  | nil => intro seen d hd; simp [saveInstancesLoop] at hd
  | cons i rest ih =>
    intro seen d hd
    by_cases hs : i.started = true
    · by_cases ht : (toInstanceData now i).title ∈ seen
      · rw [saveInstancesLoop, if_pos hs, if_pos ht] at hd
        exact ih seen d hd
      · rw [saveInstancesLoop, if_pos hs, if_neg ht] at hd
        rcases List.mem_cons.mp hd with hd | hd
        · subst hd; exact ht
        · have := ih _ d hd
          intro hmem
          exact this (List.mem_cons_of_mem _ hmem)
    · rw [saveInstancesLoop, if_neg hs] at hd
      exact ih seen d hd

lemma saveInstancesLoop_pairwise (now : Nat) (insts : List Instance) :
    ∀ seen, (saveInstancesLoop now insts seen).Pairwise (fun a b => a.title ≠ b.title) := by
  induction insts with
  | nil => intro seen; simp [saveInstancesLoop]
  | cons i rest ih =>
    intro seen
    by_cases hs : i.started = true
    · by_cases ht : (toInstanceData now i).title ∈ seen
      · rw [saveInstancesLoop, if_pos hs, if_pos ht]; exact ih seen
      · rw [saveInstancesLoop, if_pos hs, if_neg ht]
        refine List.Pairwise.cons ?_ (ih _)
        intro b hb
        have := saveInstancesLoop_not_mem_seen now rest _ b hb
        intro heq
        exact this (by rw [← heq]; exact List.mem_cons_self _ _)
    · rw [saveInstancesLoop, if_neg hs]; exact ih seen

lemma saveInstancesLoop_mem (now : Nat) (insts : List Instance) :
    ∀ seen, ∀ d ∈ saveInstancesLoop now insts seen,
      ∃ i, i ∈ insts ∧ i.started = true ∧ d = toInstanceData now i := by
  induction insts with
  | nil => intro seen d hd; simp [saveInstancesLoop] at hd
  | cons i rest ih =>
    intro seen d hd
    by_cases hs : i.started = true
    · by_cases ht : (toInstanceData now i).title ∈ seen
      · rw [saveInstancesLoop, if_pos hs, if_pos ht] at hd
        obtain ⟨j, hj, hjs, hjd⟩ := ih seen d hd
        exact ⟨j, List.mem_cons_of_mem _ hj, hjs, hjd⟩
      · rw [saveInstancesLoop, if_pos hs, if_neg ht] at hd
        rcases List.mem_cons.mp hd with hd | hd
        · exact ⟨i, List.mem_cons_self _ _, hs, hd⟩
        · obtain ⟨j, hj, hjs, hjd⟩ := ih _ d hd
          exact ⟨j, List.mem_cons_of_mem _ hj, hjs, hjd⟩
    · rw [saveInstancesLoop, if_neg hs] at hd
      obtain ⟨j, hj, hjs, hjd⟩ := ih seen d hd
      exact ⟨j, List.mem_cons_of_mem _ hj, hjs, hjd⟩

lemma saveInstancesLoop_first (now : Nat) (insts : List Instance) :
    ∀ seen, ∀ d ∈ saveInstancesLoop now insts seen,
      ((insts.filter (fun i => i.started && decide (i.title = d.title))).head?).map
        (toInstanceData now) = some d := by
  induction insts with
  | nil => intro seen d hd; simp [saveInstancesLoop] at hd
  | cons i rest ih =>
    intro seen d hd
    by_cases hs : i.started = true
    · by_cases ht : (toInstanceData now i).title ∈ seen
      · rw [saveInstancesLoop, if_pos hs, if_pos ht] at hd
        have hdt : d.title ∉ seen := saveInstancesLoop_not_mem_seen now rest seen d hd
        have hne : ¬(i.title = d.title) := by
          intro heq
          rw [title_toInstanceData] at ht
          exact hdt (heq ▸ ht)
        rw [List.filter_cons, if_neg (by simp [hs, hne])]
        exact ih seen d hd
      · rw [saveInstancesLoop, if_pos hs, if_neg ht] at hd
        rcases List.mem_cons.mp hd with hd | hd
        · subst hd
          rw [List.filter_cons, if_pos (by simp [hs, title_toInstanceData])]
          simp
        · have hdt : d.title ∉ (toInstanceData now i).title :: seen :=
            saveInstancesLoop_not_mem_seen now rest _ d hd
          have hne : ¬(i.title = d.title) := by
            intro heq
            exact hdt (by rw [title_toInstanceData, heq]; exact List.mem_cons_self _ _)
          rw [List.filter_cons, if_neg (by simp [hs, hne])]
          exact ih _ d hd
    · rw [saveInstancesLoop, if_neg hs] at hd
      rw [List.filter_cons, if_neg (by simp [hs])]
      exact ih seen d hd

lemma saveInstancesLoop_covers (now : Nat) (insts : List Instance) :
    ∀ seen, ∀ i ∈ insts, i.started = true →
      i.title ∈ seen ∨ ∃ d ∈ saveInstancesLoop now insts seen, d.title = i.title := by
  induction insts with
  | nil => intro seen i hi; simp at hi
  | cons j rest ih =>
    intro seen i hi his
    by_cases hjs : j.started = true
    · by_cases hjt : (toInstanceData now j).title ∈ seen
      · rcases List.mem_cons.mp hi with hi | hi
        · subst hi
          left
          rwa [title_toInstanceData] at hjt
        · rcases ih seen i hi his with h | ⟨d, hd, hdt⟩
          · exact Or.inl h
          · refine Or.inr ⟨d, ?_, hdt⟩
            rw [saveInstancesLoop, if_pos hjs, if_pos hjt]
            exact hd
      · rcases List.mem_cons.mp hi with hi | hi
        · subst hi
          right
          refine ⟨toInstanceData now i, ?_, title_toInstanceData now i⟩
          rw [saveInstancesLoop, if_pos hjs, if_neg hjt]
          exact List.mem_cons_self _ _
        · rcases ih ((toInstanceData now j).title :: seen) i hi his with h | ⟨d, hd, hdt⟩
          · rcases List.mem_cons.mp h with h | h
            · right
              refine ⟨toInstanceData now j, ?_, ?_⟩
              · rw [saveInstancesLoop, if_pos hjs, if_neg hjt]
                exact List.mem_cons_self _ _
              · rw [← h]
            · exact Or.inl h
          · right
            refine ⟨d, ?_, hdt⟩
            rw [saveInstancesLoop, if_pos hjs, if_neg hjt]
            exact List.mem_cons_of_mem _ hd
    · rcases List.mem_cons.mp hi with hi | hi
      · subst hi; exact absurd his hjs
      · rcases ih seen i hi his with h | ⟨d, hd, hdt⟩
        · exact Or.inl h
        · refine Or.inr ⟨d, ?_, hdt⟩
          rw [saveInstancesLoop, if_neg hjs]
          exact hd

/-- C8: the persisted record list has pairwise-distinct titles; every record
comes from a started input instance (unstarted instances are never
persisted); every record is the serialization of the FIRST started input
instance bearing its title (later duplicates are dropped); and every started
input instance is represented by some record with its title. -/
theorem c8_save_instances (now : Nat) (instances : List Instance) :
    (storageSaveInstances now instances).Pairwise (fun a b => a.title ≠ b.title)
  ∧ (∀ d ∈ storageSaveInstances now instances,
      ∃ i, i ∈ instances ∧ i.started = true ∧ d = toInstanceData now i)
  ∧ (∀ d ∈ storageSaveInstances now instances,
      ((instances.filter (fun i => i.started && decide (i.title = d.title))).head?).map
        (toInstanceData now) = some d)
  ∧ (∀ i ∈ instances, i.started = true →
      ∃ d ∈ storageSaveInstances now instances, d.title = i.title) := by
  refine ⟨saveInstancesLoop_pairwise now instances [], ?_, ?_, ?_⟩
  · exact saveInstancesLoop_mem now instances []
  · exact saveInstancesLoop_first now instances []
  · intro i hi his
    rcases saveInstancesLoop_covers now instances [] i hi his with h | h
    · simp at h
    · exact h

/-- An instance used by the C8 witness: started, titled `"x"`. -/
def c8InstA : Instance :=
  { title := "x", status := .running, started := true }

/-- An instance used by the C8 witness: never started, titled `"y"`. -/
def c8InstB : Instance :=
  { title := "y", status := .ready, started := false }

/-- An instance used by the C8 witness: started, duplicate title `"x"`,
different program (so the record would differ from `c8InstA`'s). -/
def c8InstC : Instance :=
  { title := "x", status := .ready, program := "aider", started := true }

/-- C8 witness: saving `[A(started,"x"), B(unstarted,"y"),
C(started,"x" dup)]` persists exactly A's record; the duplicate C and the
unstarted B are dropped, and the kept record is the first "x" instance. -/
theorem c8_save_instances_witness :
    storageSaveInstances 9 [c8InstA, c8InstB, c8InstC] = [toInstanceData 9 c8InstA]
  ∧ ((([c8InstA, c8InstB, c8InstC].filter
        (fun i => i.started && decide (i.title = (toInstanceData 9 c8InstA).title))).head?).map
      (toInstanceData 9) = some (toInstanceData 9 c8InstA))
  ∧ (∃ d ∈ storageSaveInstances 9 [c8InstA, c8InstB, c8InstC], d.title = c8InstC.title) := by
  refine ⟨by decide, ?_, ?_⟩
  · exact (c8_save_instances 9 [c8InstA, c8InstB, c8InstC]).2.2.1
      (toInstanceData 9 c8InstA) (by decide)
  · exact (c8_save_instances 9 [c8InstA, c8InstB, c8InstC]).2.2.2 c8InstC (by decide) (by decide)

/-! ## FromInstanceData / ToInstanceData round trip (instance.go lines
99-143 and 208-272) — C1 -/

/-- The restore path of `Instance.startInternal(firstTimeSetup=false, ...)`
(instance.go lines 353-464): title check, session-type and multiplexer-type
defaulting, multiplexer handle creation, then `session.Restore()` (external;
oracle `restoreOk`); on success the deferred handler marks the instance
started and `SetStatus(Running)` stamps status and activity time. With
`firstTimeSetup = false` no worktree and no branch are created. -/
def startRestore (i : Instance) (now : Nat) (restoreOk : Bool) : Except String Instance :=
  if i.title = "" then .error "instance title cannot be empty"
  else
    let i' : Instance :=
      { i with
        sessionType := if i.sessionType = "" then sessionTypeZellij else i.sessionType
        multiplexerType := if i.multiplexerType = "" then multiplexerZellij
          else i.multiplexerType
        hasSession := true }
    if restoreOk then
      .ok { i' with started := true, status := .running, lastActivity := now }
    else .error "failed to restore existing session"

/-- `session.FromInstanceData` (instance.go lines 208-272). -/
def fromInstanceData (data : InstanceData) (now : Nat) (restoreOk : Bool) :
    Except String Instance :=
  let sessionType := if data.sessionType = "" then sessionTypeZellij else data.sessionType
  let inst : Instance :=
    { title := data.title
      path := data.path
      branch := data.branch
      status := data.status
      height := data.height
      width := data.width
      createdAt := data.createdAt
      updatedAt := data.updatedAt
      lastOpenedAt := data.lastOpenedAt
      program := data.program
      archived := data.archived
      summary := data.summary
      summaryUpdatedAt := data.summaryUpdatedAt
      claudeSessionID := data.claudeSessionID
      sessionType := sessionType
      dockerContainerID := data.dockerContainerID
      dockerRepoURL := data.dockerRepoURL
      multiplexerType := multiplexerZellij
      diffStats := some { content := data.diffStats.content, added := data.diffStats.added,
                          removed := data.diffStats.removed, error := none } }
  let inst' : Instance :=
    if data.worktree.worktreePath ≠ "" ∨ sessionType ≠ sessionTypeDockerClone then
      { inst with gitWorktree := some (newGitWorktreeFromStorage data.worktree.repoPath
          data.worktree.worktreePath data.worktree.sessionName data.worktree.branchName
          data.worktree.baseCommitSHA) }
    else inst
  if inst'.status = Status.paused ∨ inst'.archived = true then
    .ok { inst' with started := true, hasSession := true }
  else
    startRestore inst' now restoreOk

/-- A persisted record with `auto_yes = true` and `updated_at = 2`,
serialized while paused. -/
def c1Data : InstanceData :=
  { title := "t", path := "/p", branch := "dev/t", status := .paused, height := 0, width := 0,
    createdAt := 1, updatedAt := 2, lastOpenedAt := none, autoYes := true, archived := false,
    program := "claude", multiplexer := "zellij",
    worktree := ⟨"/r", "/w", "t", "dev/t", "sha"⟩, diffStats := ⟨1, 2, "d"⟩,
    summary := "s", summaryUpdatedAt := 3, claudeSessionID := "cid",
    sessionType := "zellij", dockerContainerID := "", dockerRepoURL := "" }

/-- C1 (counterexample): the persistence round trip is NOT a fixed point on
the persisted fields. `FromInstanceData` never copies `AutoYes` (the field
is missing from the struct literal at instance.go lines 216-240), and
`ToInstanceData` stores `time.Now()` — not the loaded value — into
`UpdatedAt` (line 108). For the concrete paused record `c1Data` with
`auto_yes = true` and `updated_at = 2`, converting back at time 8 yields
`auto_yes = false` and `updated_at = 8`. -/
theorem c1_roundtrip_counterexample :
    (fromInstanceData c1Data 7 true).map (fun i => (toInstanceData 8 i).autoYes) = .ok false
  ∧ c1Data.autoYes = true
  ∧ (fromInstanceData c1Data 7 true).map (fun i => (toInstanceData 8 i).updatedAt) = .ok 8
  ∧ c1Data.updatedAt = 2 := by
  refine ⟨rfl, rfl, rfl, rfl⟩

/-- C1 (amended): for a record serialized as paused or archived (so that
reloading does not take the `Start(false)` restore path, which would force
the status to Running), with a non-empty `session_type` and a worktree
descriptor that is actually reconstructed, the round trip
`ToInstanceData ∘ FromInstanceData` preserves every persisted field EXCEPT
`updated_at` (replaced by the serialization time), `auto_yes` (dropped on
load, so persisted as `false`), and the deprecated `multiplexer` tag
(always rewritten to `"zellij"`). -/
theorem c1_roundtrip_amended (d : InstanceData) (now now' : Nat) (restoreOk : Bool)
    (h1 : d.status = Status.paused ∨ d.archived = true)
    (h2 : d.sessionType ≠ "")
    (h3 : d.worktree.worktreePath ≠ "" ∨ d.sessionType ≠ sessionTypeDockerClone) :
    ∃ inst, fromInstanceData d now restoreOk = .ok inst
      ∧ toInstanceData now' inst
          = { d with updatedAt := now', autoYes := false, multiplexer := multiplexerZellij } := by
  have hses : (if d.sessionType = "" then sessionTypeZellij else d.sessionType)
      = d.sessionType := if_neg h2
  refine ⟨{ title := d.title, path := d.path, branch := d.branch, status := d.status,
            height := d.height, width := d.width, createdAt := d.createdAt,
            updatedAt := d.updatedAt, lastOpenedAt := d.lastOpenedAt, program := d.program,
            archived := d.archived, summary := d.summary,
            summaryUpdatedAt := d.summaryUpdatedAt, claudeSessionID := d.claudeSessionID,
            sessionType := d.sessionType, dockerContainerID := d.dockerContainerID,
            dockerRepoURL := d.dockerRepoURL, multiplexerType := multiplexerZellij,
            diffStats := some { content := d.diffStats.content, added := d.diffStats.added,
                                removed := d.diffStats.removed, error := none },
            gitWorktree := some (newGitWorktreeFromStorage d.worktree.repoPath
              d.worktree.worktreePath d.worktree.sessionName d.worktree.branchName
              d.worktree.baseCommitSHA),
            started := true, hasSession := true }, ?_, ?_⟩
  · unfold fromInstanceData
    simp only [hses]
    split
    · rfl
    · next hcond => exact absurd h3 hcond
  · unfold toInstanceData newGitWorktreeFromStorage
    rcases d with ⟨t, p, b, st, ht, wd, ca, ua, loa, ay, ar, pr, mx, wt, ds, sm, su, cs, sty, dc, dr⟩
    rfl

/-! ## Terminal screen render (part_009 lines 107-230) — C6

The vt100 grid is modelled as a list of rows, each row the zipped
`Content[y]`/`Format[y]` arrays: a list of (char, format) cells.
`vt100.Format`'s zero value (the "no color, no attribute" state) is
`defaultVTFormat`; `Intensity` is 0 = Normal, 1 = Bright, 2 = Dim. -/

/-- `color.RGBA`. -/
structure VTColor where
  r : Nat
  g : Nat
  b : Nat
  a : Nat
deriving DecidableEq

/-- `vt100.Format`. -/
structure VTFormat where
  fg : VTColor
  bg : VTColor
  intensity : Nat
  underscore : Bool
  conceal : Bool
  negative : Bool
  blink : Bool
  inverse : Bool
deriving DecidableEq

/-- The Go zero value of `vt100.Format`. -/
def defaultVTFormat : VTFormat :=
  { fg := ⟨0, 0, 0, 0⟩, bg := ⟨0, 0, 0, 0⟩, intensity := 0,
    underscore := false, conceal := false, negative := false,
    blink := false, inverse := false }

/-- `formatsEqual` (part_009 lines 158-167). -/
def formatsEqual (a b : VTFormat) : Bool :=
  decide (a.fg = b.fg) && decide (a.bg = b.bg) && decide (a.intensity = b.intensity)
    && decide (a.underscore = b.underscore) && decide (a.conceal = b.conceal)
    && decide (a.negative = b.negative) && decide (a.blink = b.blink)
    && decide (a.inverse = b.inverse)

/-- `colorToANSI` (part_009 lines 218-230). -/
def colorToANSI (c : VTColor) (foreground : Bool) : String :=
  if c.r = 0 ∧ c.g = 0 ∧ c.b = 0 ∧ c.a = 0 then ""
  else if foreground then
    "38;2;" ++ toString c.r ++ ";" ++ toString c.g ++ ";" ++ toString c.b
  else
    "48;2;" ++ toString c.r ++ ";" ++ toString c.g ++ ";" ++ toString c.b

/-- `formatToANSI` (part_009 lines 170-214). -/
def formatToANSI (f : VTFormat) : String :=
  let codes : List String := ["0"]
  let codes := codes ++ (if f.intensity = 1 then ["1"]
    else if f.intensity = 2 then ["2"] else [])
  let codes := codes ++ (if f.underscore then ["4"] else [])
  let codes := codes ++ (if f.blink then ["5"] else [])
  let codes := codes ++ (if f.inverse then ["7"] else [])
  let codes := codes ++ (if f.conceal then ["8"] else [])
  let codes := codes ++ (match colorToANSI f.fg true with
    | "" => []
    | s => [s])
  let codes := codes ++ (match colorToANSI f.bg false with
    | "" => []
    | s => [s])
  if codes = ["0"] then "\x1b[0m"
  else "\x1b[" ++ String.intercalate ";" codes ++ "m"

/-- `WriteRune`'s NUL handling: a zero cell renders as a space
(part_009 lines 143-147). -/
def mapNulToSpace (c : Char) : Char :=
  if c = '\x00' then ' ' else c

/-- The inner cell loop of `renderToANSI` (part_009 lines 128-148), with
the string builder, `prevFormat` and `firstCell` threaded explicitly. -/
def renderRowCells : List (Char × VTFormat) → String → VTFormat → Bool →
    String × VTFormat × Bool
  | [], acc, prev, firstCell => (acc, prev, firstCell)
  | (ch, fmt) :: rest, acc, prev, firstCell =>
    if firstCell || !formatsEqual fmt prev then
      let ansi := formatToANSI fmt
      let acc' := if ansi ≠ "" then acc ++ ansi else acc
      renderRowCells rest (acc' ++ String.singleton (mapNulToSpace ch)) fmt false
    else
      renderRowCells rest (acc ++ String.singleton (mapNulToSpace ch)) prev firstCell

/-- Number of trailing blank (space or NUL) cells in a row; the source scans
from `width-1` for the last non-blank column (part_009 lines 119-127). -/
def trailingBlankCount (row : List (Char × VTFormat)) : Nat :=
  (row.reverse.takeWhile (fun cell => cell.1 == ' ' || cell.1 == '\x00')).length

/-- The cells the row loop emits: columns `0..lastNonSpace`, but always at
least column 0 (`x <= lastNonSpace || x == 0`). A zero-width row (which the
source never produces and would index out of range on) yields no cells. -/
def emittedCells (row : List (Char × VTFormat)) : List (Char × VTFormat) :=
  row.take (max (row.length - trailingBlankCount row) 1)

/-- The row loop of `renderToANSI` (part_009 lines 114-155): newline before
every row but the first, then the cells, then a final reset. -/
def renderRowsAux : List (List (Char × VTFormat)) → String → VTFormat → Bool → Bool → String
  | [], acc, _, _, _ => acc ++ "\x1b[0m"
  | row :: rest, acc, prev, firstCell, isFirstRow =>
    let acc' := if isFirstRow then acc else acc ++ "\n"
    let res := renderRowCells (emittedCells row) acc' prev firstCell
    renderRowsAux rest res.1 res.2.1 res.2.2 false

/-- `TerminalBuffer.renderToANSI` (part_009 lines 107-155). -/
def renderToANSI (rows : List (List (Char × VTFormat))) : String :=
  renderRowsAux rows "" defaultVTFormat true true

/-- A cell is "plain ASCII with no formatting": default format and a
printable ASCII character. -/
def plainCell (cell : Char × VTFormat) : Bool :=
  decide (cell.2 = defaultVTFormat) && decide (' ' ≤ cell.1) && decide (cell.1 ≤ '~')

/-- The raw content of one row: trailing blanks trimmed, except that a row
trimmed to nothing still contributes its column-0 cell. -/
def trimmedRowStr (row : List (Char × VTFormat)) : String :=
  String.mk ((emittedCells row).map Prod.fst)

/-- Rows joined by newlines. -/
def joinedRows : List String → String
  | [] => ""
  | [a] => a
  | a :: rest => a ++ "\n" ++ joinedRows rest

lemma formatToANSI_default : formatToANSI defaultVTFormat = "\x1b[0m" := by decide

lemma formatsEqual_self (f : VTFormat) : formatsEqual f f = true := by
  simp [formatsEqual]

lemma strAppend_mk_nil (acc : String) : acc ++ String.mk [] = acc := by
  cases acc
  show String.mk _ = String.mk _
  rw [List.append_nil]

lemma strAppend_singleton_mk (acc : String) (c : Char) (cs : List Char) :
    (acc ++ String.singleton c) ++ String.mk cs = acc ++ String.mk (c :: cs) := by
  rw [strAppend_assoc]
  rfl

lemma renderRowCells_default (cells : List (Char × VTFormat))
    (h : ∀ cell ∈ cells, cell.2 = defaultVTFormat) : ∀ acc : String,
    renderRowCells cells acc defaultVTFormat false
      = (acc ++ String.mk (cells.map (fun cell => mapNulToSpace cell.1)),
         defaultVTFormat, false) := by
  induction cells with
  | nil => intro acc; simp [renderRowCells, strAppend_mk_nil]
  | cons hd tl ih =>
    intro acc
    obtain ⟨ch, fmt⟩ := hd
    have hfmt : fmt = defaultVTFormat := h (ch, fmt) (List.mem_cons_self _ _)
    subst hfmt
    rw [renderRowCells, if_neg (by simp [formatsEqual_self])]
    rw [ih (fun cell hc => h cell (List.mem_cons_of_mem _ hc))]
    rw [List.map_cons, strAppend_singleton_mk]

lemma renderRowCells_first (cells : List (Char × VTFormat))
    (h : ∀ cell ∈ cells, cell.2 = defaultVTFormat) (hne : cells ≠ []) (acc : String)
    (prev : VTFormat) :
    renderRowCells cells acc prev true
      = (acc ++ "\x1b[0m" ++ String.mk (cells.map (fun cell => mapNulToSpace cell.1)),
         defaultVTFormat, false) := by
  cases cells with
  | nil => exact absurd rfl hne
  | cons hd tl =>
    obtain ⟨ch, fmt⟩ := hd
    have hfmt : fmt = defaultVTFormat := h (ch, fmt) (List.mem_cons_self _ _)
    subst hfmt
    rw [renderRowCells, if_pos (by simp)]
    simp only [formatToANSI_default]
    rw [if_pos (by decide)]
    rw [renderRowCells_default tl (fun cell hc => h cell (List.mem_cons_of_mem _ hc))]
    rw [List.map_cons, strAppend_singleton_mk]

/-- What the cell loop actually prints for one row: the emitted cells'
characters with NUL mapped to space. -/
def renderedRowStr (row : List (Char × VTFormat)) : String :=
  String.mk ((emittedCells row).map (fun cell => mapNulToSpace cell.1))

/-- Expected tail of the render for the rows after the first: each prefixed
with a newline. -/
def rowsTailRender : List (List (Char × VTFormat)) → String
  | [] => ""
  | row :: rest => ("\n" ++ renderedRowStr row) ++ rowsTailRender rest

lemma renderRowsAux_rest (rows : List (List (Char × VTFormat)))
    (h : ∀ row ∈ rows, ∀ cell ∈ row, cell.2 = defaultVTFormat) : ∀ acc : String,
    renderRowsAux rows acc defaultVTFormat false false
      = acc ++ rowsTailRender rows ++ "\x1b[0m" := by
  induction rows with
  | nil => intro acc; simp [renderRowsAux, rowsTailRender, strAppend_mk_nil]
  | cons row rest ih =>
    intro acc
    have hrow : ∀ cell ∈ emittedCells row, cell.2 = defaultVTFormat := by
      intro cell hc
      exact h row (List.mem_cons_self _ _) cell ((List.take_sublist _ _).subset hc)
    rw [renderRowsAux, if_neg (by simp)]
    rw [renderRowCells_default (emittedCells row) hrow]
    rw [ih (fun r hr => h r (List.mem_cons_of_mem _ hr))]
    rw [rowsTailRender]
    show (acc ++ "\n" ++ renderedRowStr row) ++ _ ++ _ = _
    simp only [strAppend_assoc]

lemma plain_format (cell : Char × VTFormat) (h : plainCell cell = true) :
    cell.2 = defaultVTFormat := by
  simp [plainCell] at h
  exact h.1.1

lemma plain_not_nul (cell : Char × VTFormat) (h : plainCell cell = true) :
    mapNulToSpace cell.1 = cell.1 := by
  simp [plainCell] at h
  rw [mapNulToSpace, if_neg]
  intro heq
  rw [heq] at h
  exact absurd h.1.2 (by decide)

lemma emitted_map_plain (row : List (Char × VTFormat))
    (h : ∀ cell ∈ row, plainCell cell = true) :
    (emittedCells row).map (fun cell => mapNulToSpace cell.1)
      = (emittedCells row).map Prod.fst := by
  apply List.map_congr_left
  intro cell hc
  exact plain_not_nul cell (h cell ((List.take_sublist _ _).subset hc))

lemma renderedRowStr_eq_trimmed (row : List (Char × VTFormat))
    (h : ∀ cell ∈ row, plainCell cell = true) :
    renderedRowStr row = trimmedRowStr row := by
  rw [renderedRowStr, trimmedRowStr, emitted_map_plain row h]

lemma joinedRows_eq_tail (row : List (Char × VTFormat))
    (rest : List (List (Char × VTFormat))) :
    joinedRows ((row :: rest).map renderedRowStr)
      = renderedRowStr row ++ rowsTailRender rest := by
  induction rest generalizing row with
  | nil =>
    show joinedRows [renderedRowStr row] = _
    rw [joinedRows, rowsTailRender, strAppend_mk_nil]
  | cons r2 rs ih =>
    show renderedRowStr row ++ "\n" ++ joinedRows ((r2 :: rs).map renderedRowStr)
      = renderedRowStr row ++ rowsTailRender (r2 :: rs)
    rw [ih r2, rowsTailRender]
    simp only [strAppend_assoc]

/-- C6 (counterexample): for an all-ASCII, no-attribute buffer the render is
NOT just the raw content plus one trailing reset: the first cell always
flushes its (default) format, emitting a LEADING `ESC[0m` as well, and an
all-blank row still renders its column-0 cell as one space. The 1×1 grid
`['a']` renders as `"\x1b[0ma\x1b[0m"`, not `"a\x1b[0m"`; the 2-row grid
`['a'] / [' ']` renders with a space on the second line. -/
theorem c6_render_counterexample :
    renderToANSI [[('a', defaultVTFormat)]] = "\x1b[0m" ++ "a" ++ "\x1b[0m"
  ∧ renderToANSI [[('a', defaultVTFormat)]] ≠ "a" ++ "\x1b[0m"
  ∧ renderToANSI [[('a', defaultVTFormat)], [(' ', defaultVTFormat)]]
      = "\x1b[0m" ++ "a\n " ++ "\x1b[0m" := by
  refine ⟨by decide, by decide, by decide⟩

/-- C6 (amended): for a non-empty buffer of non-empty rows whose cells all
hold printable ASCII characters with the default (no color, no attribute)
format, the render is a SINGLE LEADING reset (flushed for the first cell),
then the raw cell content — rows joined by newlines, trailing blanks
trimmed, except that an all-blank row keeps its column-0 cell as one
space — then a single trailing reset, with no other escape sequences. -/
theorem c6_render_amended (rows : List (List (Char × VTFormat)))
    (hne : rows ≠ []) (hrowne : ∀ row ∈ rows, row ≠ [])
    (hplain : ∀ row ∈ rows, ∀ cell ∈ row, plainCell cell = true) :
    renderToANSI rows
      = "\x1b[0m" ++ joinedRows (rows.map trimmedRowStr) ++ "\x1b[0m" := by
  cases rows with
  | nil => exact absurd rfl hne
  | cons row rest =>
    have hrowfmt : ∀ cell ∈ emittedCells row, cell.2 = defaultVTFormat := by
      intro cell hc
      exact plain_format cell
        (hplain row (List.mem_cons_self _ _) cell ((List.take_sublist _ _).subset hc))
    have hemne : emittedCells row ≠ [] := by
      have := hrowne row (List.mem_cons_self _ _)
      rw [emittedCells]
      intro htake
      rcases List.take_eq_nil_iff.mp htake with hmax | hnil
      · omega
      · exact this hnil
    rw [renderToANSI, renderRowsAux, if_pos rfl]
    rw [renderRowCells_first (emittedCells row) hrowfmt hemne]
    rw [renderRowsAux_rest rest
      (fun r hr cell hc => plain_format cell (hplain r (List.mem_cons_of_mem _ hr) cell hc))]
    have hmap : (row :: rest).map trimmedRowStr = (row :: rest).map renderedRowStr :=
      List.map_congr_left (fun r hr => (renderedRowStr_eq_trimmed r (hplain r hr)).symm)
    rw [hmap, joinedRows_eq_tail]
    show ("" ++ "\x1b[0m" ++ renderedRowStr row) ++ rowsTailRender rest ++ "\x1b[0m" = _
    simp only [strAppend_assoc]
    rfl

/-- C6 witness: a concrete 2×3 plain-ASCII buffer (second row with trailing
blanks) renders as leading reset, trimmed rows joined by a newline, and a
trailing reset. -/
theorem c6_render_amended_witness :
    renderToANSI
        [[('h', defaultVTFormat), ('i', defaultVTFormat), (' ', defaultVTFormat)],
         [('x', defaultVTFormat), (' ', defaultVTFormat), (' ', defaultVTFormat)]]
      = "\x1b[0m" ++ "hi\nx" ++ "\x1b[0m" := by
  have h := c6_render_amended
    [[('h', defaultVTFormat), ('i', defaultVTFormat), (' ', defaultVTFormat)],
     [('x', defaultVTFormat), (' ', defaultVTFormat), (' ', defaultVTFormat)]]
    (by decide) (by decide) (by decide)
  rw [h]
  decide

/-! ## OSC-8 stripping in TerminalBuffer.Write (part_009 lines 19-74) — C5

```go
var oscSequenceRegex = regexp.MustCompile(`\x1b\]8;[^;]*;[^\x1b\x07]*(?:\x1b\\|\x07)`)
func (tb *TerminalBuffer) Write(p []byte) (n int, err error) {
    cleaned := oscSequenceRegex.ReplaceAll(p, nil)
    _, err = tb.vt.Write(cleaned)
    if len(cleaned) > 0 { tb.dirty = true }
    return len(p), err
}
```
`ReplaceAll` removes successive leftmost matches. At a given start the
regex is deterministic: it must open with `ESC ] 8 ;`, `[^;]*` greedily
runs to the first `;` (it cannot cross one), `[^\x1b\x07]*` greedily runs
to the first ESC or BEL (it cannot cross them), and the terminator must be
exactly the next one or two bytes (`BEL`, or `ESC \`), with no backtracking
possible. `stripOSC8` is that scanner: at each position it either removes
a full match or keeps the byte and retries from the next position, which
is exactly `ReplaceAll`'s leftmost-match semantics. The byte stream is
modelled as `List Char` (all syntax bytes are ASCII). -/

/-- One match attempt positioned just after an `ESC ] 8 ;` opening:
`[^;]*` `;` `[^\x1b\x07]*` (`ESC \` | `BEL`); returns the remainder after
the match, or `none` when the sequence is not completed. -/
def matchOsc8After (l : List Char) : Option (List Char) :=
  match l.dropWhile (fun c => !(c == ';')) with
  | ';' :: l2 =>
    match l2.dropWhile (fun c => !(c == '\x1b' || c == '\x07')) with
    | '\x07' :: r => some r
    | '\x1b' :: '\\' :: r => some r
    | _ => none
  | _ => none

/-- Whether `rest` (the bytes after an ESC) completes an OSC-8 match:
`] 8 ;` then the body; returns the remainder after the match. -/
def stripStep (rest : List Char) : Option (List Char) :=
  match rest with
  | ']' :: '8' :: ';' :: rest2 => matchOsc8After rest2
  | _ => none

/-- The leftmost-match scanner for `oscSequenceRegex.ReplaceAll(p, nil)`;
`fuel` (≥ the input length) makes the recursion structural. -/
def stripOSC8Fuel : Nat → List Char → List Char
  | 0, l => l
  | _ + 1, [] => []
  | fuel + 1, c :: rest =>
    if c == '\x1b' then
      match stripStep rest with
      | some r => stripOSC8Fuel fuel r
      | none => c :: stripOSC8Fuel fuel rest
    else c :: stripOSC8Fuel fuel rest

/-- `oscSequenceRegex.ReplaceAll(p, nil)`. -/
def stripOSC8 (l : List Char) : List Char :=
  stripOSC8Fuel l.length l

/-- The Terminal Screen Buffer as far as `Write` observes it: the byte
stream fed to the wrapped vt100 emulator, and the dirty flag. -/
structure TerminalBufferModel where
  fed : List Char
  dirty : Bool
deriving DecidableEq

/-- `TerminalBuffer.Write` (part_009 lines 61-74). -/
def terminalWrite (tb : TerminalBufferModel) (p : List Char) : TerminalBufferModel × Nat :=
  let cleaned := stripOSC8 p
  ({ fed := tb.fed ++ cleaned
     dirty := if cleaned.length > 0 then true else tb.dirty },
   p.length)

/-- A well-formed OSC-8 hyperlink sequence: `ESC ] 8 ; params ; URI term`
with `term` either `BEL` or `ESC \`. -/
structure Osc8Link where
  params : List Char
  uri : List Char
  termBel : Bool

/-- The terminator bytes. -/
def Osc8Link.termChars (k : Osc8Link) : List Char :=
  if k.termBel then ['\x07'] else ['\x1b', '\\']

/-- The byte rendering of the link sequence. -/
def Osc8Link.render (k : Osc8Link) : List Char :=
  '\x1b' :: ']' :: '8' :: ';' :: (k.params ++ ';' :: (k.uri ++ k.termChars))

/-- Well-formedness: the params part carries no `;` and the URI part
carries no ESC and no BEL (otherwise the sequence would terminate
earlier or not match). -/
def Osc8Link.wf (k : Osc8Link) : Prop :=
  ';' ∉ k.params ∧ '\x1b' ∉ k.uri ∧ '\x07' ∉ k.uri

/-- An input made of plain text segments interleaved with OSC-8 link
sequences (each segment first, its link after), then a trailing segment:
this covers in particular anchor text enclosed between an opening and a
closing OSC-8 sequence. -/
def buildOsc8Input : List (List Char × Osc8Link) → List Char → List Char
  | [], trailing => trailing
  | (t, k) :: rest, trailing => t ++ (k.render ++ buildOsc8Input rest trailing)

/-- The same input with every link sequence removed. -/
def plainTexts : List (List Char × Osc8Link) → List Char → List Char
  | [], trailing => trailing
  | (t, _) :: rest, trailing => t ++ plainTexts rest trailing

lemma dropWhile_append_of_all (p : Char → Bool) (xs ys : List Char)
    (h : ∀ x ∈ xs, p x = true) :
    (xs ++ ys).dropWhile p = ys.dropWhile p := by
  induction xs with
  | nil => rfl
  | cons a xs ih =>
    rw [List.cons_append, List.dropWhile_cons, if_pos (h a (List.mem_cons_self _ _))]
    exact ih (fun x hx => h x (List.mem_cons_of_mem _ hx))

lemma matchOsc8After_length (l r : List Char) (h : matchOsc8After l = some r) :
    r.length ≤ l.length := by
  unfold matchOsc8After at h
  have h1 : (l.dropWhile (fun c => !(c == ';'))).length ≤ l.length :=
    (List.dropWhile_sublist _).length_le
  cases hd : l.dropWhile (fun c => !(c == ';')) with
  | nil => rw [hd] at h; exact absurd h (by simp)
  | cons a l2 =>
    rw [hd] at h h1
    by_cases ha : a = ';'
    · subst ha
      simp only at h
      have h2 : (l2.dropWhile (fun c => !(c == '\x1b' || c == '\x07'))).length ≤ l2.length :=
        (List.dropWhile_sublist _).length_le
      cases hd2 : l2.dropWhile (fun c => !(c == '\x1b' || c == '\x07')) with
      | nil => rw [hd2] at h; exact absurd h (by simp)
      | cons b r2 =>
        rw [hd2] at h h2
        simp only [List.length_cons] at h1 h2
        by_cases hb7 : b = '\x07'
        · subst hb7
          simp only [Option.some.injEq] at h
          subst h
          omega
        · by_cases hbe : b = '\x1b'
          · subst hbe
            cases r2 with
            | nil => simp at h
            | cons b2 r3 =>
              by_cases hb2 : b2 = '\\'
              · subst hb2
                simp only [Option.some.injEq] at h
                subst h
                simp only [List.length_cons] at h2
                omega
              · simp [hb2] at h
          · simp [hb7, hbe] at h
    · simp [ha] at h

lemma stripStep_length (rest r : List Char) (h : stripStep rest = some r) :
    r.length ≤ rest.length := by
  unfold stripStep at h
  cases rest with
  | nil => simp at h
  | cons a rest1 =>
    by_cases ha : a = ']'
    · subst ha
      cases rest1 with
      | nil => simp at h
      | cons b rest2 =>
        by_cases hb : b = '8'
        · subst hb
          cases rest2 with
          | nil => simp at h
          | cons c rest3 =>
            by_cases hc : c = ';'
            · subst hc
              simp only at h
              have := matchOsc8After_length rest3 r h
              simp only [List.length_cons]
              omega
            · simp [hc] at h
        · simp [hb] at h
    · simp [ha] at h

lemma stripOSC8Fuel_nil : ∀ fuel, stripOSC8Fuel fuel [] = [] := by
  intro fuel
  cases fuel <;> rfl

lemma stripOSC8Fuel_cons_esc_match (fuel : Nat) (c : Char) (rest r : List Char)
    (hc : (c == '\x1b') = true) (hs : stripStep rest = some r) :
    stripOSC8Fuel (fuel + 1) (c :: rest) = stripOSC8Fuel fuel r := by
  simp [stripOSC8Fuel, hc, hs]

lemma stripOSC8Fuel_cons_esc_nomatch (fuel : Nat) (c : Char) (rest : List Char)
    (hc : (c == '\x1b') = true) (hs : stripStep rest = none) :
    stripOSC8Fuel (fuel + 1) (c :: rest) = c :: stripOSC8Fuel fuel rest := by
  simp [stripOSC8Fuel, hc, hs]

lemma stripOSC8Fuel_cons_plain (fuel : Nat) (c : Char) (rest : List Char)
    (hc : (c == '\x1b') = false) :
    stripOSC8Fuel (fuel + 1) (c :: rest) = c :: stripOSC8Fuel fuel rest := by
  simp [stripOSC8Fuel, hc]

lemma stripOSC8Fuel_congr : ∀ (fuel₁ : Nat) (l : List Char) (fuel₂ : Nat),
    l.length ≤ fuel₁ → l.length ≤ fuel₂ →
    stripOSC8Fuel fuel₁ l = stripOSC8Fuel fuel₂ l := by
  intro fuel₁
  induction fuel₁ with
  | zero =>
    intro l fuel₂ h1 _
    rw [List.length_eq_zero.mp (Nat.le_zero.mp h1)]
    rw [stripOSC8Fuel_nil, stripOSC8Fuel_nil]
  | succ f1 ih =>
    intro l fuel₂ h1 h2
    cases l with
    | nil => rw [stripOSC8Fuel_nil, stripOSC8Fuel_nil]
    | cons c rest =>
      cases fuel₂ with
      | zero => simp at h2
      | succ f2 =>
        simp only [List.length_cons] at h1 h2
        by_cases hc : (c == '\x1b') = true
        · cases hs : stripStep rest with
          | some r =>
            have hr := stripStep_length rest r hs
            rw [stripOSC8Fuel_cons_esc_match f1 c rest r hc hs,
              stripOSC8Fuel_cons_esc_match f2 c rest r hc hs]
            exact ih r f2 (by omega) (by omega)
          | none =>
            rw [stripOSC8Fuel_cons_esc_nomatch f1 c rest hc hs,
              stripOSC8Fuel_cons_esc_nomatch f2 c rest hc hs]
            rw [ih rest f2 (by omega) (by omega)]
        · have hc' : (c == '\x1b') = false := by simpa using hc
          rw [stripOSC8Fuel_cons_plain f1 c rest hc',
            stripOSC8Fuel_cons_plain f2 c rest hc']
          rw [ih rest f2 (by omega) (by omega)]

lemma stripOSC8Fuel_no_esc (t : List Char) (h : '\x1b' ∉ t) :
    ∀ (s : List Char) (fuel : Nat), (t ++ s).length ≤ fuel →
    stripOSC8Fuel fuel (t ++ s) = t ++ stripOSC8Fuel (fuel - t.length) s := by
  induction t with
  | nil =>
    intro s fuel _
    rfl
  | cons c t' ih =>
    intro s fuel hfuel
    have hc : (c == '\x1b') = false := by
      simp only [beq_eq_false_iff_ne, ne_eq]
      intro heq
      exact h (heq ▸ List.mem_cons_self _ _)
    cases fuel with
    | zero => simp at hfuel
    | succ f =>
      have hb : (t' ++ s).length ≤ f := by
        simp only [List.cons_append, List.length_cons] at hfuel
        omega
      rw [List.cons_append, stripOSC8Fuel_cons_plain f c (t' ++ s) hc]
      rw [ih (fun hm => h (List.mem_cons_of_mem _ hm)) s f hb]
      rw [show (f + 1) - (c :: t').length = f - t'.length from by
        simp [Nat.succ_sub_succ]]
      rfl

lemma stripOSC8_no_esc (t s : List Char) (h : '\x1b' ∉ t) :
    stripOSC8 (t ++ s) = t ++ stripOSC8 s := by
  rw [stripOSC8, stripOSC8Fuel_no_esc t h s _ le_rfl, List.length_append,
    Nat.add_sub_cancel_left]
  rfl

lemma matchOsc8After_render (k : Osc8Link) (s : List Char) (hwf : k.wf) :
    matchOsc8After (k.params ++ ';' :: (k.uri ++ (k.termChars ++ s))) = some s := by
  obtain ⟨hp, hue, hub⟩ := hwf
  have h1 : ∀ x ∈ k.params, (!(x == ';')) = true := by
    intro x hx
    simp only [Bool.not_eq_true']
    exact beq_eq_false_iff_ne.mpr (fun heq => hp (heq ▸ hx))
  have h2 : ∀ x ∈ k.uri, (!(x == '\x1b' || x == '\x07')) = true := by
    intro x hx
    simp only [Bool.not_eq_true']
    refine Bool.or_eq_false_iff.mpr ⟨?_, ?_⟩
    · exact beq_eq_false_iff_ne.mpr (fun heq => hue (heq ▸ hx))
    · exact beq_eq_false_iff_ne.mpr (fun heq => hub (heq ▸ hx))
  unfold matchOsc8After
  rw [dropWhile_append_of_all _ k.params _ h1]
  rw [List.dropWhile_cons, if_neg (by decide)]
  show (match (k.uri ++ (k.termChars ++ s)).dropWhile
        (fun c => !(c == '\x1b' || c == '\x07')) with
    | '\x07' :: r => some r
    | '\x1b' :: '\\' :: r => some r
    | _ => none) = some s
  rw [dropWhile_append_of_all _ k.uri _ h2]
  cases hb : k.termBel with
  | true =>
    rw [Osc8Link.termChars, if_pos hb, List.singleton_append,
      List.dropWhile_cons, if_neg (by decide)]
    rfl
  | false =>
    rw [Osc8Link.termChars, if_neg (by rw [hb]; exact Bool.false_ne_true)]
    show (match ('\x1b' :: '\\' :: s).dropWhile
          (fun c => !(c == '\x1b' || c == '\x07')) with
      | '\x07' :: r => some r
      | '\x1b' :: '\\' :: r => some r
      | _ => none) = some s
    rw [List.dropWhile_cons, if_neg (by decide)]
    rfl

lemma stripStep_render (k : Osc8Link) (s : List Char) (hwf : k.wf) :
    stripStep (']' :: '8' :: ';' :: (k.params ++ ';' :: (k.uri ++ (k.termChars ++ s))))
      = some s := by
  unfold stripStep
  exact matchOsc8After_render k s hwf

lemma stripOSC8_render (k : Osc8Link) (s : List Char) (hwf : k.wf) :
    stripOSC8 (k.render ++ s) = stripOSC8 s := by
  have hshape : k.render ++ s
      = '\x1b' :: (']' :: '8' :: ';' :: (k.params ++ ';' :: (k.uri ++ (k.termChars ++ s)))) := by
    simp [Osc8Link.render, List.append_assoc]
  rw [stripOSC8, hshape]
  cases hfl : ('\x1b' :: (']' :: '8' :: ';'
      :: (k.params ++ ';' :: (k.uri ++ (k.termChars ++ s))))).length with
  | zero => simp at hfl
  | succ f =>
    rw [stripOSC8Fuel_cons_esc_match f '\x1b' _ s (by decide) (stripStep_render k s hwf)]
    have hsle : s.length ≤ f := by
      simp only [List.length_cons, List.length_append] at hfl
      omega
    rw [stripOSC8]
    exact stripOSC8Fuel_congr f s s.length hsle le_rfl

lemma esc_not_mem_plainTexts (pieces : List (List Char × Osc8Link)) (trailing : List Char)
    (hpieces : ∀ piece ∈ pieces, '\x1b' ∉ piece.1) (htrail : '\x1b' ∉ trailing) :
    '\x1b' ∉ plainTexts pieces trailing := by
  induction pieces with
  | nil => exact htrail
  | cons piece rest ih =>
    obtain ⟨t, k⟩ := piece
    intro hmem
    rcases List.mem_append.mp hmem with hmem | hmem
    · exact hpieces (t, k) (List.mem_cons_self _ _) hmem
    · exact ih (fun pc hpc => hpieces pc (List.mem_cons_of_mem _ hpc)) hmem

lemma stripOSC8_buildInput (pieces : List (List Char × Osc8Link)) (trailing : List Char)
    (hpieces : ∀ piece ∈ pieces, '\x1b' ∉ piece.1 ∧ piece.2.wf)
    (htrail : '\x1b' ∉ trailing) :
    stripOSC8 (buildOsc8Input pieces trailing) = plainTexts pieces trailing := by
  induction pieces with
  | nil =>
    show stripOSC8 trailing = trailing
    have h := stripOSC8_no_esc trailing [] htrail
    rw [List.append_nil] at h
    rw [h, show stripOSC8 [] = [] from rfl, List.append_nil]
  | cons piece rest ih =>
    obtain ⟨t, k⟩ := piece
    show stripOSC8 (t ++ (k.render ++ buildOsc8Input rest trailing)) = _
    rw [stripOSC8_no_esc t _ (hpieces (t, k) (List.mem_cons_self _ _)).1]
    rw [stripOSC8_render k _ (hpieces (t, k) (List.mem_cons_self _ _)).2]
    rw [ih (fun pc hpc => hpieces pc (List.mem_cons_of_mem _ hpc))]
    rfl

lemma piece_text_infix (pieces : List (List Char × Osc8Link)) (trailing : List Char) :
    ∀ piece ∈ pieces, piece.1 <:+: plainTexts pieces trailing := by
  induction pieces with
  | nil => intro piece hp; simp at hp
  | cons hd rest ih =>
    intro piece hp
    obtain ⟨t, k⟩ := hd
    rcases List.mem_cons.mp hp with hp | hp
    · subst hp
      exact ⟨[], plainTexts rest trailing, rfl⟩
    · obtain ⟨pre, suf, heq⟩ := ih piece hp
      refine ⟨t ++ pre, suf, ?_⟩
      show t ++ pre ++ piece.1 ++ suf = t ++ plainTexts rest trailing
      rw [← heq]
      simp [List.append_assoc]

/-- The concrete OSC-8 sequence `ESC ] 8 ; ; h BEL` (an entire input made of
one hyperlink sequence). -/
def c5Seq : List Char := ['\x1b', ']', '8', ';', ';', 'h', '\x07']

/-- C5 (counterexample): when the input consists entirely of OSC-8
sequences, `Write` does NOT mark the buffer dirty: the stripped input is
empty, and `if len(cleaned) > 0` leaves the flag untouched. The claim's
"marks the buffer dirty ... including when the input consists entirely of
OSC-8 sequences" fails on the single-sequence input `c5Seq` written to a
clean buffer (the returned length is still the original input length). -/
theorem c5_write_counterexample :
    stripOSC8 c5Seq = []
  ∧ (terminalWrite ⟨[], false⟩ c5Seq).1.dirty = false
  ∧ (terminalWrite ⟨[], false⟩ c5Seq).2 = c5Seq.length := by
  refine ⟨by decide, by decide, by decide⟩

/-- C5 (amended): for every input interleaving ESC-free text segments with
well-formed OSC-8 hyperlink sequences, `Write` feeds the VT100 emulator
exactly the concatenated text segments — every anchor text appears verbatim
and the fed bytes contain no ESC at all, hence no `ESC ] 8 ;` — and returns
the original input length; the buffer is marked dirty exactly when the
stripped content is non-empty, so an input consisting entirely of OSC-8
sequences leaves the dirty flag unchanged. -/
theorem c5_write_amended (tb : TerminalBufferModel)
    (pieces : List (List Char × Osc8Link)) (trailing : List Char)
    (hpieces : ∀ piece ∈ pieces, '\x1b' ∉ piece.1 ∧ piece.2.wf)
    (htrail : '\x1b' ∉ trailing) :
    stripOSC8 (buildOsc8Input pieces trailing) = plainTexts pieces trailing
  ∧ (terminalWrite tb (buildOsc8Input pieces trailing)).1.fed
      = tb.fed ++ plainTexts pieces trailing
  ∧ (terminalWrite tb (buildOsc8Input pieces trailing)).2
      = (buildOsc8Input pieces trailing).length
  ∧ '\x1b' ∉ plainTexts pieces trailing
  ∧ (∀ piece ∈ pieces, piece.1 <:+: plainTexts pieces trailing)
  ∧ (terminalWrite tb (buildOsc8Input pieces trailing)).1.dirty
      = (if (plainTexts pieces trailing).length > 0 then true else tb.dirty) := by
  have hstrip := stripOSC8_buildInput pieces trailing hpieces htrail
  refine ⟨hstrip, ?_, rfl, ?_, ?_, ?_⟩
  · show tb.fed ++ stripOSC8 (buildOsc8Input pieces trailing) = _
    rw [hstrip]
  · exact esc_not_mem_plainTexts pieces trailing (fun pc hpc => (hpieces pc hpc).1) htrail
  · exact piece_text_infix pieces trailing
  · show (if (stripOSC8 (buildOsc8Input pieces trailing)).length > 0 then true else tb.dirty) = _
    rw [hstrip]

/-- C5 witness: writing `"click " ++ ⟨OSC-8 open⟩ ++ "here" ++ ⟨OSC-8
close⟩ ++ "!"` feeds the emulator exactly `"click here!"` (anchor text kept,
no escapes), returns the original 28-byte length, and marks the buffer
dirty. -/
theorem c5_write_amended_witness :
    stripOSC8 (buildOsc8Input
        [(['c', 'l', 'i', 'c', 'k', ' '], ⟨[], ['u'], true⟩),
         (['h', 'e', 'r', 'e'], ⟨[], [], true⟩)] ['!'])
      = ['c', 'l', 'i', 'c', 'k', ' ', 'h', 'e', 'r', 'e', '!']
  ∧ (terminalWrite ⟨[], false⟩ (buildOsc8Input
        [(['c', 'l', 'i', 'c', 'k', ' '], ⟨[], ['u'], true⟩),
         (['h', 'e', 'r', 'e'], ⟨[], [], true⟩)] ['!'])).1.dirty = true := by
  have h := c5_write_amended ⟨[], false⟩
    [(['c', 'l', 'i', 'c', 'k', ' '], ⟨[], ['u'], true⟩),
     (['h', 'e', 'r', 'e'], ⟨[], [], true⟩)] ['!']
    (by
      intro piece hp
      rcases List.mem_cons.mp hp with hp | hp
      · subst hp; exact ⟨by decide, by decide, by decide, by decide⟩
      · rcases List.mem_cons.mp hp with hp | hp
        · subst hp; exact ⟨by decide, by decide, by decide, by decide⟩
        · simp at hp)
    (by decide)
  refine ⟨?_, ?_⟩
  · rw [h.1]; rfl
  · rw [h.2.2.2.2.2]; rfl

/-- C1 witness: a concrete paused record (with `auto_yes = false` and the
other fields populated) round-trips to itself up to the three rewritten
fields. -/
def c1WitData : InstanceData :=
  { title := "w", path := "/p", branch := "dev/w", status := .paused, height := 3, width := 4,
    createdAt := 1, updatedAt := 2, lastOpenedAt := some 5, autoYes := false, archived := false,
    program := "claude", multiplexer := "zellij",
    worktree := ⟨"/r", "/w", "w", "dev/w", "sha"⟩, diffStats := ⟨1, 2, "d"⟩,
    summary := "s", summaryUpdatedAt := 3, claudeSessionID := "cid",
    sessionType := "zellij", dockerContainerID := "", dockerRepoURL := "" }

/-! ## Diff pipeline (session/git/worktree.go lines 194-267, instance.go
lines 717-741) — C2 -/

/-- Oracle for the git subprocess results consumed by the diff pipeline:
the `add -N .` staging step, the `--no-pager diff <base>` output for a SET
base commit, and the porcelain dirty check used by the cache. -/
structure GitCmdEnv where
  addNResult : Except String Unit
  diffOutput : Except String String
  dirtyCheck : Except String Bool

/-- Modelled from the spec: `runGitCommand` — the git subprocess runner the
`git` package calls — is not under src/ (only its call sites are). Per the
spec ("Returns `Error` in a field when `base_commit_sha` is unset rather
than failing loudly" and instance.go's matching on the message), running
the diff against an unset (empty) base commit yields an error carrying the
"base commit SHA not set" marker; with a set base the oracle's output is
returned. -/
def runGitDiffBase (baseSHA : String) (env : GitCmdEnv) : Except String String :=
  if baseSHA = "" then .error "base commit SHA not set" else env.diffOutput

/-- Count of `+`-prefixed diff lines excluding `+++` file headers
(worktree.go lines 256-263). -/
def countDiffAdded (content : String) : Nat :=
  ((content.splitOn "\n").filter
    (fun l => l.startsWith "+" && !l.startsWith "+++")).length

/-- Count of `-`-prefixed diff lines excluding `---` file headers. -/
def countDiffRemoved (content : String) : Nat :=
  ((content.splitOn "\n").filter
    (fun l => l.startsWith "-" && !l.startsWith "---")).length

/-- `GitWorktree.diffUncached` (worktree.go lines 241-267). -/
def diffUncached (g : GitWorktree) (env : GitCmdEnv) : DiffStats :=
  match env.addNResult with
  | .error e => { content := "", added := 0, removed := 0, error := some e }
  | .ok _ =>
    match runGitDiffBase g.baseCommitSHA env with
    | .error e => { content := "", added := 0, removed := 0, error := some e }
    | .ok content =>
      { content := content, added := countDiffAdded content,
        removed := countDiffRemoved content, error := none }

/-- The "run the full diff and cache the result" tail of `Diff()`
(worktree.go lines 230-237). -/
def diffFull (g : GitWorktree) (env : GitCmdEnv) (now : Nat) : DiffStats × GitWorktree :=
  let stats := diffUncached g env
  (stats, { g with cachedDiffStats := some stats, diffCacheTime := now })

/-- `GitWorktree.Diff` (worktree.go lines 210-238), returning the stats and
the worktree with its mutated cache fields. -/
def gitWorktreeDiff (g₀ : GitWorktree) (env : GitCmdEnv) (now : Nat) :
    DiffStats × GitWorktree :=
  let g := if g₀.diffCacheDuration = 0 then { g₀ with diffCacheDuration := 5000 } else g₀
  match g.cachedDiffStats with
  | some cached =>
    if now - g.diffCacheTime < g.diffCacheDuration then
      if cached.isEmptyStats then
        match env.dirtyCheck with
        | .ok false => (cached, g)
        | _ => diffFull g env now
      else (cached, g)
    else diffFull g env now
  | none => diffFull g env now

/-- `strings.Contains`. -/
def strContains (s sub : String) : Bool := decide (sub.data <:+: s.data)

/-- `Instance.UpdateDiffStats` (instance.go lines 717-741). The worktree's
cache mutation is threaded through the returned instance; a nil worktree on
a started instance would nil-panic in Go and is modelled as an error. -/
def updateDiffStats (i : Instance) (env : GitCmdEnv) (now : Nat) : Except String Instance :=
  if !i.started then .ok { i with diffStats := none }
  else if i.status = Status.paused then .ok i
  else
    match i.gitWorktree with
    | none => .error "runtime error: nil gitWorktree"
    | some g =>
      let res := gitWorktreeDiff g env now
      match res.1.error with
      | some e =>
        if strContains e "base commit SHA not set" then
          .ok { i with diffStats := none, gitWorktree := some res.2 }
        else .error ("failed to get diff stats: " ++ e)
      | none =>
        .ok { i with
              diffStats := some res.1
              lastDiffUpdate := now
              gitWorktree := some res.2 }

/-- C2: when `base_commit_sha` is unset, the uncached diff returns its
`Error` field set to the "not yet ready" marker instead of a loud failure,
and `UpdateDiffStats` on a started, non-paused instance interprets that
marker as "not yet ready, skip": it clears the stored diff stats and
returns success (`.ok`), not an error. -/
theorem c2_diff_not_ready (i : Instance) (g : GitWorktree) (env : GitCmdEnv) (now : Nat)
    (hs : i.started = true) (hp : i.status ≠ Status.paused) (hg : i.gitWorktree = some g)
    (hbase : g.baseCommitSHA = "") (hcache : g.cachedDiffStats = none)
    (haddN : env.addNResult = .ok ()) :
    (diffUncached g env).error = some "base commit SHA not set"
  ∧ ∃ g', updateDiffStats i env now
      = .ok { i with diffStats := none, gitWorktree := some g' } := by
  constructor
  · simp [diffUncached, haddN, runGitDiffBase, hbase]
  · refine ⟨(gitWorktreeDiff g env now).2, ?_⟩
    have herr : (gitWorktreeDiff g env now).1.error = some "base commit SHA not set" := by
      unfold gitWorktreeDiff diffFull
      by_cases hdur : g.diffCacheDuration = 0 <;>
        simp [hdur, hcache, diffUncached, haddN, runGitDiffBase, hbase]
    unfold updateDiffStats
    rw [hs, hg]
    simp only [Bool.not_true, Bool.false_eq_true, if_false, if_neg hp]
    rw [herr]
    simp only [strContains]
    rw [if_pos (by decide)]

/-- Concrete worktree with an unset base commit, used by the C2 witness. -/
def c2Worktree : GitWorktree :=
  newGitWorktreeFromStorage "/r" "/w" "t" "dev/t" ""

/-- Concrete started running instance holding `c2Worktree`, used by the C2
witness. -/
def c2Inst : Instance :=
  { title := "t", status := .running, started := true, hasSession := true,
    diffStats := some { content := "old", added := 1, removed := 0, error := none },
    gitWorktree := some c2Worktree }

/-- C2 witness: on the concrete instance with unset base commit, the diff
error carries the marker and `UpdateDiffStats` clears the stats and
succeeds. -/
theorem c2_diff_not_ready_witness :
    (diffUncached c2Worktree
        { addNResult := .ok (), diffOutput := .ok "", dirtyCheck := .ok false }).error
      = some "base commit SHA not set"
  ∧ ∃ g', updateDiffStats c2Inst
        { addNResult := .ok (), diffOutput := .ok "", dirtyCheck := .ok false } 11
      = .ok { c2Inst with diffStats := none, gitWorktree := some g' } :=
  c2_diff_not_ready c2Inst c2Worktree _ 11 rfl (by decide) rfl rfl rfl rfl

/-- C1 witness: instantiation of the amended round-trip theorem at
`c1WitData`. -/
theorem c1_roundtrip_amended_witness :
    ∃ inst, fromInstanceData c1WitData 7 true = .ok inst
      ∧ toInstanceData 8 inst
          = { c1WitData with
              updatedAt := 8
              autoYes := false
              multiplexer := multiplexerZellij } :=
  c1_roundtrip_amended c1WitData 7 8 true (Or.inl rfl) (by decide) (Or.inl (by decide))

end ClaudeSquad
